import Mathlib

/-!
# Nanvix: process-management header, console driver and mkfs front end

A shallow embedding of

* `include/nanvix/pm.h`   (priority constants, the hard-coded offsets of
  `struct process`, `KERNEL_RUNNING`, `INIT`/`FIRST_PROC`/`LAST_PROC`),
* `tools/minix/mkfs.c`    (`usage`, `main`),
* `kernel/dev/tty/console.c` (`cursor_move`, `console_scrolldown`,
  `console_put`),

followed by the properties established about them.
-/

set_option autoImplicit false

namespace Nanvix

/-! ## `pm.h`: constants -/

/-- Process quantum. -/
def PROC_QUANTUM : Nat := 100

/-- Waiting for inode. -/
def PRIO_INODE : Int := -60
/-- Waiting for terminal I/O. -/
def PRIO_TTY : Int := -40
/-- Waiting for memory region. -/
def PRIO_REGION : Int := -20
/-- User priority. -/
def PRIO_USER : Int := 0
/-- Daemon priority. -/
def PRIO_DAEMON : Int := 20
/-- Priority of init. -/
def PRIO_INIT : Int := 40

/-- The priority constants of `pm.h`, in the order the header defines them. -/
def priorities : List Int :=
  [PRIO_INODE, PRIO_TTY, PRIO_REGION, PRIO_USER, PRIO_DAEMON, PRIO_INIT]

/-- Offset of the kernel stack pointer. -/
def PROC_KESP : Nat := 0
/-- Offset of the page directory pointer. -/
def PROC_CR3 : Nat := 4
/-- Offset of the interrupt level. -/
def PROC_INTLVL : Nat := 8
/-- Offset of the saved registers pointer. -/
def PROC_REGS : Nat := 12
/-- Offset of the process flags. -/
def PROC_FLAGS : Nat := 16
/-- Offset of the received signals. -/
def PROC_RECEIVED : Nat := 20
/-- Offset of the kernel stack base. -/
def PROC_KSTACK : Nat := 24
/-- Offset of the signal handlers. -/
def PROC_HANDLERS : Nat := 28

/-- Number of process memory regions. -/
def NR_PREGIONS : Nat := 6

/-! ## `pm.h`: layout of `struct process` -/

/-- The C types that occur as member types of `struct process`.  The types
that come from headers outside `pm.h` (`struct pregion`, `size_t`, `uid_t`,
`gid_t`, `pid_t`) are kept by name. -/
inductive CType where
  | dword
  | int
  | unsigned
  | ptr
  | sighandler
  | pregion
  | size_t
  | uid_t
  | gid_t
  | pid_t
  | array (elem : CType) (len : Nat)
  deriving DecidableEq, Repr

/-- Sizes of the types that `pm.h` takes from other headers. -/
structure ExternSizes where
  pregion : Nat
  size_t : Nat
  uid_t : Nat
  gid_t : Nat
  pid_t : Nat
  deriving Repr

/-- Size in bytes of a member type under the i386 layout: `dword_t`, `int`,
`unsigned` and every pointer (a `sighandler_t` is a function pointer) take
four bytes. -/
def sizeof (e : ExternSizes) : CType → Nat
  | .dword => 4
  | .int => 4
  | .unsigned => 4
  | .ptr => 4
  | .sighandler => 4
  | .pregion => e.pregion
  | .size_t => e.size_t
  | .uid_t => e.uid_t
  | .gid_t => e.gid_t
  | .pid_t => e.pid_t
  | .array t n => n * sizeof e t

/-- Member names of `struct process`. -/
inductive Member where
  | kesp | cr3 | intlvl | regs | flags | received | kstack | handlers
  | pgdir | pregs | size
  | uid | euid | suid | gid | egid | sgid | pid | father | pgrp
  | utime | ktime
  | state | counter | priority | nice | alarm | next | chain
  deriving DecidableEq, Repr

/-- The members of `struct process` in declaration order, with their types. -/
def struct_process : List (Member × CType) :=
  [ (.kesp, .dword), (.cr3, .dword), (.intlvl, .dword), (.regs, .ptr),
    (.flags, .int), (.received, .int), (.kstack, .ptr),
    (.handlers, .array .sighandler 32),
    (.pgdir, .ptr), (.pregs, .array .pregion NR_PREGIONS), (.size, .size_t),
    (.uid, .uid_t), (.euid, .uid_t), (.suid, .uid_t),
    (.gid, .gid_t), (.egid, .gid_t), (.sgid, .gid_t),
    (.pid, .pid_t), (.father, .pid_t), (.pgrp, .pid_t),
    (.utime, .int), (.ktime, .int),
    (.state, .int), (.counter, .int), (.priority, .int), (.nice, .int),
    (.alarm, .unsigned), (.next, .ptr), (.chain, .ptr) ]

/-- Byte offset of member `m` in a member list laid out in declaration order
without padding, counted from `base`: the sizes of the members declared
before `m` are added up. -/
def offsetFrom (e : ExternSizes) (m : Member) : Nat → List (Member × CType) → Option Nat
  | _, [] => none
  | base, (m0, t) :: rest =>
    if m0 = m then some base else offsetFrom e m (base + sizeof e t) rest

/-- Byte offset of a member of `struct process`. -/
def offsetof (e : ExternSizes) (m : Member) : Option Nat :=
  offsetFrom e m 0 struct_process

/-- The members declared before `m`, in declaration order. -/
def membersBefore (m : Member) : List (Member × CType) :=
  struct_process.takeWhile (fun f => decide (f.1 ≠ m))

/-! ## `pm.h`: the process record and `KERNEL_RUNNING` -/

/-- The process record, member by member; `pregion` is the type of
`struct pregion` (from `nanvix/region.h`).  Integer members hold their C
value (`dword_t` and `unsigned` members are below `2^32`), pointer members
the address they point to. -/
structure process (pregion : Type) where
  kesp : Nat
  cr3 : Nat
  intlvl : Nat
  regs : Nat
  flags : Int
  received : Int
  kstack : Nat
  handlers : List Nat
  pgdir : Nat
  pregs : List pregion
  size : Nat
  uid : Int
  euid : Int
  suid : Int
  gid : Int
  egid : Int
  sgid : Int
  pid : Int
  father : Int
  pgrp : Int
  utime : Int
  ktime : Int
  state : Int
  counter : Int
  priority : Int
  nice : Int
  alarm : Nat
  next : Nat
  chain : Nat

/-- The macro `KERNEL_RUNNING(p)`, that is `((p)->intlvl > 1)`. -/
def KERNEL_RUNNING {pregion : Type} (p : process pregion) : Bool :=
  decide (p.intlvl > 1)

/-- A running user process at interrupt level `lvl`. -/
def sampleProcess (lvl : Nat) : process Unit :=
  { kesp := 0xc0100000, cr3 := 0x1000, intlvl := lvl, regs := 0xc0100f00, flags := 0,
    received := 0, kstack := 0xc0100000, handlers := List.replicate 32 0,
    pgdir := 0x1000, pregs := List.replicate NR_PREGIONS (), size := 4096,
    uid := 0, euid := 0, suid := 0, gid := 0, egid := 0, sgid := 0,
    pid := 1, father := 0, pgrp := 0, utime := 0, ktime := 0,
    state := 2, counter := 100, priority := 0, nice := 0, alarm := 0,
    next := 0, chain := 0 }

/-- Another record: a sleeping daemon with pending signals, at interrupt
level `lvl`. -/
def otherProcess (lvl : Nat) : process Unit :=
  { kesp := 0xc0200000, cr3 := 0x2000, intlvl := lvl, regs := 0xc0200f00, flags := 2,
    received := 6, kstack := 0xc0200000, handlers := List.replicate 32 1,
    pgdir := 0x2000, pregs := List.replicate NR_PREGIONS (), size := 8192,
    uid := 1, euid := 1, suid := 1, gid := 1, egid := 1, sgid := 1,
    pid := 7, father := 1, pgrp := 7, utime := 12, ktime := 5,
    state := 5, counter := 3, priority := 20, nice := 4, alarm := 50,
    next := 0xc0300000, chain := 0xc0400000 }

/-! ## `pm.h`: the process table -/

/-- Slot of `INIT`, that is `&proctab[0]`. -/
def INIT : Nat := 0

/-- Slot of `FIRST_PROC`, that is `&proctab[1]`. -/
def FIRST_PROC : Nat := 1

/-- Slot of `LAST_PROC`, that is `&proctab[PROC_MAX - 1]`; `PROC_MAX` comes
from `nanvix/config.h` and is a parameter here. -/
def LAST_PROC (PROC_MAX : Nat) : Nat := PROC_MAX - 1

/-- The loop `for (p = first; p <= last; p++)` over table slots, collecting
the slots it visits; `fuel` bounds the number of iterations. -/
def visitSlots (last : Nat) : Nat → Nat → List Nat
  | 0, _ => []
  | fuel + 1, p => if p ≤ last then p :: visitSlots last fuel (p + 1) else []

/-- Slots visited by `for (p = FIRST_PROC; p <= LAST_PROC; p++)`. -/
def ordinarySlots (PROC_MAX : Nat) : List Nat :=
  visitSlots (LAST_PROC PROC_MAX) (LAST_PROC PROC_MAX + 1 - FIRST_PROC) FIRST_PROC

/-! ## `tools/minix/mkfs.c` -/

/-- Exit status `EXIT_SUCCESS`. -/
def EXIT_SUCCESS : Int := 0

/-- What a run of the tool does that can be observed: the text written to
standard output, the calls made to `minix_mkfs` (disk file, number of inodes,
number of blocks) in order, and the exit status. -/
structure Run where
  stdout : String
  calls : List (String × Nat × Nat)
  status : Int
  deriving DecidableEq, Repr

/-- The function `usage`: prints the usage line and exits. -/
def usage : Run :=
  { stdout := "usage: mkfs.minix <input file> <ninodes> <nblocks>\n",
    calls := [],
    status := EXIT_SUCCESS }

/-- The statement `sscanf(arg, "%u", &var)`: `scan arg` is the number the
library converts `arg` to, if the conversion succeeds; otherwise `var` keeps
the value `old` it had. -/
def sscanf_u (scan : String → Option Nat) (arg : String) (old : Nat) : Nat :=
  match scan arg with
  | some v => v
  | none => old

/-- The function `main`.  `argv` is the argument vector and `argc` its
length; `scan` is the `%u` conversion of the C library, and `ninodes0`,
`nblocks0` are the contents of the two locals before they are assigned. -/
def main (scan : String → Option Nat) (ninodes0 nblocks0 : Nat)
    (argv : List String) : Run :=
  let argc : Int := argv.length
  if argc < 4 then
    usage
  else
    let diskfile := argv.getD 1 ""
    let ninodes := sscanf_u scan (argv.getD 2 "") ninodes0
    let nblocks := sscanf_u scan (argv.getD 2 "") nblocks0
    { stdout := "",
      calls := [(diskfile, ninodes, nblocks)],
      status := EXIT_SUCCESS }

/-- The characters the C library classifies as white space: space, tab,
newline, vertical tab, form feed and carriage return. -/
def isspace (c : Char) : Bool :=
  c.toNat = 32 || (9 ≤ c.toNat && c.toNat ≤ 13)

/-- A `%u` conversion as the C library performs it on inputs whose value fits
32 bits: leading white space is skipped, an optional sign is read, then the
longest run of decimal digits; there is no result when no digit is found.
A negative input is converted modulo `2^32`. -/
def scanDecimal (arg : String) : Option Nat :=
  let cs := arg.data.dropWhile isspace
  let signed : Bool × List Char :=
    match cs with
    | c :: rest =>
      if c.toNat = 45 then (true, rest)
      else if c.toNat = 43 then (false, rest)
      else (false, cs)
    | [] => (false, cs)
  let digits := signed.2.takeWhile Char.isDigit
  let value := digits.foldl (fun acc c => acc * 10 + (c.toNat - 48)) 0
  if digits.isEmpty then none
  else if signed.1 then some ((2 ^ 32 - value % 2 ^ 32) % 2 ^ 32)
  else some (value % 2 ^ 32)

/-! ## `kernel/dev/tty/console.c` -/

/-- Colour black. -/
def BLACK : Nat := 0x0
/-- Colour white. -/
def WHITE : Nat := 0xf

/-- Video width. -/
def VIDEO_WIDTH : Int := 80
/-- Video height. -/
def VIDEO_HIGH : Int := 25

/-- Video control register. -/
def VIDEO_CRTL_REG : Nat := 0x3d4
/-- Video data register. -/
def VIDEO_DATA_REG : Nat := 0x3d5
/-- Cursor location high. -/
def VIDEO_CLH : Nat := 0x0e
/-- Cursor location low. -/
def VIDEO_CLL : Nat := 0x0f

/-- Video memory: the 16-bit cell at each offset (in cells) from `video`. -/
abbrev VideoMem := Int → Nat

/-- The assignment `video[i] = val`. -/
def store (v : VideoMem) (i : Int) (val : Nat) : VideoMem :=
  fun j => if j = i then val else v j

/-- State of the console driver: the video memory, the cursor, and the bytes
written to I/O ports by `outputb` (port, value), oldest first. -/
structure Console where
  video : VideoMem
  x : Int
  y : Int
  ports : List (Nat × Nat)

/-- The function `cursor_move`; `cursor_location` is a 16-bit word. -/
def cursor_move (s : Console) : Console :=
  let cursor_location : Nat := ((s.y * VIDEO_WIDTH + s.x) % 65536).toNat
  { s with ports := s.ports ++
      [ (VIDEO_CRTL_REG, VIDEO_CLH),
        (VIDEO_DATA_REG, (cursor_location >>> 8) &&& 0xFF),
        (VIDEO_CRTL_REG, VIDEO_CLL),
        (VIDEO_DATA_REG, cursor_location &&& 0xFF) ] }

/-- First loop of `console_scrolldown` ("pull lines up"), started at cell
offset `p`; returns the final `p` and the memory.  The first argument bounds
the number of iterations. -/
def pull_lines : Nat → Int → VideoMem → Int × VideoMem
  | 0, p, v => (p, v)
  | fuel + 1, p, v =>
    if p < (VIDEO_HIGH - 1) * VIDEO_WIDTH then
      pull_lines fuel (p + 1) (store v p (v (p + VIDEO_WIDTH)))
    else (p, v)

/-- Second loop of `console_scrolldown` ("blank last line"), continuing at
cell offset `p`. -/
def blank_last : Nat → Int → VideoMem → Int × VideoMem
  | 0, p, v => (p, v)
  | fuel + 1, p, v =>
    if p < VIDEO_HIGH * VIDEO_WIDTH then
      blank_last fuel (p + 1) (store v p (((BLACK <<< 8) ||| 32) % 65536))
    else (p, v)

/-- The function `console_scrolldown`.  Each loop gets as many iterations as
cells lie between its start and its bound. -/
def console_scrolldown (s : Console) : Console :=
  let r1 := pull_lines ((VIDEO_HIGH - 1) * VIDEO_WIDTH).toNat 0 s.video
  let r2 := blank_last (VIDEO_HIGH * VIDEO_WIDTH - r1.1).toNat r1.1 r1.2
  { s with video := r2.2, x := 0, y := VIDEO_HIGH - 1 }

/-- The `switch (ch)` statement of `console_put`; `ch` and `color` are
`uint8_t` values, the cases are `'\n'` (10), `'\t'` (9), `'\b'` (8) and
`default`. -/
def console_put_switch (ch color : Nat) (s : Console) : Console :=
  if ch = 10 then
    { s with y := s.y + 1, x := 0 }
  else if ch = 9 then
    { s with x := s.x + (4 - Int.land s.x 3) }
  else if ch = 8 then
    let s1 : Console :=
      if s.x > 0 then { s with x := s.x - 1 }
      else if s.y > 0 then { s with x := VIDEO_WIDTH - 1, y := s.y - 1 }
      else s
    let blank : Nat := ((color <<< 8) ||| 32) % 65536
    { s1 with video := store s1.video (s1.y * VIDEO_WIDTH + s1.x) blank }
  else
    let cell : Nat := ((color <<< 8) ||| ch) % 65536
    { s with video := store s.video (s.y * VIDEO_WIDTH + s.x) cell, x := s.x + 1 }

/-- The part of `console_put` after the `switch` ("set cursor position"):
wrap at the right margin, scroll below the last row, move the hardware
cursor. -/
def console_put_cursor (s : Console) : Console :=
  let s1 : Console := if s.x ≥ VIDEO_WIDTH then { s with x := 0, y := s.y + 1 } else s
  let s2 : Console := if s1.y ≥ VIDEO_HIGH then console_scrolldown s1 else s1
  cursor_move s2

/-- The function `console_put`. -/
def console_put (ch color : Nat) (s : Console) : Console :=
  console_put_cursor (console_put_switch ch color s)

/-- The function `console_clear`. -/
def console_clear (s : Console) : Console :=
  let r := blank_last (VIDEO_HIGH * VIDEO_WIDTH).toNat 0 s.video
  cursor_move { s with video := r.2, x := 0, y := 0 }

/-- A console whose cell at offset `i` holds `i mod 65536`, with the cursor
at the given position. -/
def sampleConsole (x y : Int) : Console :=
  { video := fun i => (i % 65536).toNat, x := x, y := y, ports := [] }

/-! ## Properties of `pm.h` -/

/-- C1: under the i386 layout the hard-coded members `kesp`, `cr3`, `intlvl`,
`regs`, `flags`, `received`, `kstack` and `handlers` of `struct process` lie
at the byte offsets `PROC_KESP` = 0, `PROC_CR3` = 4, `PROC_INTLVL` = 8,
`PROC_REGS` = 12, `PROC_FLAGS` = 16, `PROC_RECEIVED` = 20, `PROC_KSTACK` = 24
and `PROC_HANDLERS` = 28, and each constant is the sum of the sizes of the
members declared before its member, whatever the sizes of the types taken
from other headers. -/
theorem proc_offsets_match_layout (e : ExternSizes) :
    (offsetof e .kesp = some PROC_KESP ∧ PROC_KESP = 0) ∧
    (offsetof e .cr3 = some PROC_CR3 ∧ PROC_CR3 = 4) ∧
    (offsetof e .intlvl = some PROC_INTLVL ∧ PROC_INTLVL = 8) ∧
    (offsetof e .regs = some PROC_REGS ∧ PROC_REGS = 12) ∧
    (offsetof e .flags = some PROC_FLAGS ∧ PROC_FLAGS = 16) ∧
    (offsetof e .received = some PROC_RECEIVED ∧ PROC_RECEIVED = 20) ∧
    (offsetof e .kstack = some PROC_KSTACK ∧ PROC_KSTACK = 24) ∧
    (offsetof e .handlers = some PROC_HANDLERS ∧ PROC_HANDLERS = 28) ∧
    PROC_KESP = ((membersBefore .kesp).map (fun f => sizeof e f.2)).sum ∧
    PROC_CR3 = ((membersBefore .cr3).map (fun f => sizeof e f.2)).sum ∧
    PROC_INTLVL = ((membersBefore .intlvl).map (fun f => sizeof e f.2)).sum ∧
    PROC_REGS = ((membersBefore .regs).map (fun f => sizeof e f.2)).sum ∧
    PROC_FLAGS = ((membersBefore .flags).map (fun f => sizeof e f.2)).sum ∧
    PROC_RECEIVED = ((membersBefore .received).map (fun f => sizeof e f.2)).sum ∧
    PROC_KSTACK = ((membersBefore .kstack).map (fun f => sizeof e f.2)).sum ∧
    PROC_HANDLERS = ((membersBefore .handlers).map (fun f => sizeof e f.2)).sum ∧
    (membersBefore .handlers).map (fun f => f.1) =
      [.kesp, .cr3, .intlvl, .regs, .flags, .received, .kstack] := by
  refine ⟨⟨rfl, rfl⟩, ⟨rfl, rfl⟩, ⟨rfl, rfl⟩, ⟨rfl, rfl⟩, ⟨rfl, rfl⟩, ⟨rfl, rfl⟩,
    ⟨rfl, rfl⟩, ⟨rfl, rfl⟩, rfl, rfl, rfl, rfl, rfl, rfl, rfl, rfl, rfl⟩

/-- C2: the priority constants are strictly increasing in the order
inode, tty, region, user, daemon, init, hence pairwise distinct. -/
theorem priorities_strictly_ordered :
    PRIO_INODE < PRIO_TTY ∧ PRIO_TTY < PRIO_REGION ∧ PRIO_REGION < PRIO_USER ∧
    PRIO_USER < PRIO_DAEMON ∧ PRIO_DAEMON < PRIO_INIT ∧
    priorities.Pairwise (fun a b => a < b) ∧ priorities.Nodup := by
  decide

/-- C3: a priority constant of `pm.h` is negative exactly when it is one of
`PRIO_INODE`, `PRIO_TTY`, `PRIO_REGION`, and at least `PRIO_USER` (which is 0)
exactly when it is one of `PRIO_USER`, `PRIO_DAEMON`, `PRIO_INIT`; and
`PRIO_INODE` is -60. -/
theorem priority_sign_separates (p : Int) (hp : p ∈ priorities) :
    (p < 0 ↔ p ∈ [PRIO_INODE, PRIO_TTY, PRIO_REGION]) ∧
    (p ≥ PRIO_USER ↔ p ∈ [PRIO_USER, PRIO_DAEMON, PRIO_INIT]) ∧
    PRIO_USER = 0 ∧ PRIO_INODE = -60 := by
  have h : ∀ q ∈ priorities,
      (q < 0 ↔ q ∈ [PRIO_INODE, PRIO_TTY, PRIO_REGION]) ∧
      (q ≥ PRIO_USER ↔ q ∈ [PRIO_USER, PRIO_DAEMON, PRIO_INIT]) ∧
      PRIO_USER = 0 ∧ PRIO_INODE = -60 := by decide
  exact h p hp

/-- Witness of C3 at `PRIO_TTY`. -/
theorem priority_sign_separates_witness :
    PRIO_TTY ∈ priorities ∧
    ((PRIO_TTY < 0 ↔ PRIO_TTY ∈ [PRIO_INODE, PRIO_TTY, PRIO_REGION]) ∧
     (PRIO_TTY ≥ PRIO_USER ↔ PRIO_TTY ∈ [PRIO_USER, PRIO_DAEMON, PRIO_INIT]) ∧
     PRIO_USER = 0 ∧ PRIO_INODE = -60) :=
  ⟨by decide, priority_sign_separates PRIO_TTY (by decide)⟩

/-- C4: `KERNEL_RUNNING(p)` holds exactly when `p.intlvl > 1`: it is false at
levels 0 and 1, true at every level from 2 up to `2^32 - 1`, and two records
with the same `intlvl` give the same answer. -/
theorem KERNEL_RUNNING_iff_nested {pregion : Type} (p : process pregion) :
    (KERNEL_RUNNING p = true ↔ p.intlvl > 1) ∧
    (p.intlvl = 0 ∨ p.intlvl = 1 → KERNEL_RUNNING p = false) ∧
    (2 ≤ p.intlvl → p.intlvl ≤ 2 ^ 32 - 1 → KERNEL_RUNNING p = true) ∧
    (∀ q : process pregion, q.intlvl = p.intlvl →
      KERNEL_RUNNING q = KERNEL_RUNNING p) := by
  refine ⟨?_, ?_, ?_, ?_⟩
  · simp [KERNEL_RUNNING]
  · intro h
    simp only [KERNEL_RUNNING, decide_eq_false_iff_not]
    omega
  · intro h _
    simp only [KERNEL_RUNNING, decide_eq_true_eq]
    omega
  · intro q hq
    simp [KERNEL_RUNNING, hq]

/-- Witness of C4: at level 1 the macro is false, at level 2 and at level
`2^32 - 1` it is true, and a record that differs in every member but
`intlvl` gives the same answer. -/
theorem KERNEL_RUNNING_iff_nested_witness :
    KERNEL_RUNNING (sampleProcess 1) = false ∧
    KERNEL_RUNNING (sampleProcess 2) = true ∧
    KERNEL_RUNNING (sampleProcess (2 ^ 32 - 1)) = true ∧
    KERNEL_RUNNING (otherProcess 2) = KERNEL_RUNNING (sampleProcess 2) :=
  ⟨(KERNEL_RUNNING_iff_nested (sampleProcess 1)).2.1 (Or.inr rfl),
   (KERNEL_RUNNING_iff_nested (sampleProcess 2)).2.2.1 (by decide) (by decide),
   (KERNEL_RUNNING_iff_nested (sampleProcess (2 ^ 32 - 1))).2.2.1 (by decide) (by decide),
   (KERNEL_RUNNING_iff_nested (sampleProcess 2)).2.2.2 (otherProcess 2) rfl⟩

/-- The slot loop visits consecutive slots when its iteration bound does not
reach past `last`. -/
theorem visitSlots_eq_range (last : Nat) :
    ∀ (fuel p : Nat), p + fuel ≤ last + 1 → visitSlots last fuel p = List.range' p fuel := by
  intro fuel
  induction fuel with
  | zero => intro p _; rfl
  | succ n ih =>
    intro p h
    have hp : p ≤ last := by omega
    rw [visitSlots, if_pos hp, ih (p + 1) (by omega), List.range'_succ]

/-- The loop from `FIRST_PROC` to `LAST_PROC` visits the slots
`1, ..., PROC_MAX - 1`. -/
theorem ordinarySlots_eq_range (PROC_MAX : Nat) :
    ordinarySlots PROC_MAX = List.range' 1 (PROC_MAX - 1) := by
  unfold ordinarySlots LAST_PROC FIRST_PROC
  rw [visitSlots_eq_range _ _ _ (by omega)]
  congr 1

/-- C5: `INIT` is slot 0, `FIRST_PROC` slot 1 and `LAST_PROC` slot
`PROC_MAX - 1`; for `PROC_MAX ≥ 2` the loop from `FIRST_PROC` to `LAST_PROC`
visits exactly the slots `1 .. PROC_MAX - 1`, never slot 0, and slot 0
followed by the visited slots lists every slot of the table exactly once. -/
theorem ordinary_slots_exclude_init (PROC_MAX : Nat) (h : 2 ≤ PROC_MAX) :
    INIT = 0 ∧ FIRST_PROC = 1 ∧ LAST_PROC PROC_MAX = PROC_MAX - 1 ∧
    ordinarySlots PROC_MAX = List.range' 1 (PROC_MAX - 1) ∧
    (∀ i, i ∈ ordinarySlots PROC_MAX ↔ 1 ≤ i ∧ i ≤ PROC_MAX - 1) ∧
    INIT ∉ ordinarySlots PROC_MAX ∧
    INIT :: ordinarySlots PROC_MAX = List.range PROC_MAX ∧
    (INIT :: ordinarySlots PROC_MAX).Nodup ∧
    (∀ i, i ∈ INIT :: ordinarySlots PROC_MAX ↔ i < PROC_MAX) := by
  have hr := ordinarySlots_eq_range PROC_MAX
  have hall : INIT :: ordinarySlots PROC_MAX = List.range PROC_MAX := by
    rw [hr, List.range_eq_range']
    have : PROC_MAX = (PROC_MAX - 1) + 1 := by omega
    conv_rhs => rw [this, List.range'_succ]
    rfl
  refine ⟨rfl, rfl, rfl, hr, ?_, ?_, hall, ?_, ?_⟩
  · intro i
    rw [hr, List.mem_range'_1]
    omega
  · rw [hr, List.mem_range'_1]
    simp [INIT]
  · rw [hall]
    exact List.nodup_range PROC_MAX
  · intro i
    rw [hall, List.mem_range]

/-- Witness of C5 for a table of 4 slots. -/
theorem ordinary_slots_exclude_init_witness :
    ordinarySlots 4 = [1, 2, 3] ∧ INIT ∉ ordinarySlots 4 ∧
    INIT :: ordinarySlots 4 = List.range 4 :=
  have h := ordinary_slots_exclude_init 4 (by decide)
  ⟨h.2.2.2.1, h.2.2.2.2.2.1, h.2.2.2.2.2.2.1⟩

/-! ## Properties of `mkfs.c` -/

/-- With fewer than four arguments `main` prints the usage line and exits
without calling `minix_mkfs`. -/
theorem main_missing_arguments (scan : String → Option Nat) (ninodes0 nblocks0 : Nat)
    (argv : List String) (h : argv.length < 4) :
    main scan ninodes0 nblocks0 argv = usage ∧ usage.calls = [] := by
  have h4 : ((argv.length : Nat) : Int) < 4 := by omega
  simp [main, h4, usage]

/-- With at least four arguments `main` makes one call to `minix_mkfs`, whose
operands are taken from `argv[1]` and `argv[2]` only. -/
theorem main_call (scan : String → Option Nat) (ninodes0 nblocks0 : Nat)
    (argv : List String) (h : 4 ≤ argv.length) :
    main scan ninodes0 nblocks0 argv =
      { stdout := "",
        calls := [(argv.getD 1 "", sscanf_u scan (argv.getD 2 "") ninodes0,
                   sscanf_u scan (argv.getD 2 "") nblocks0)],
        status := EXIT_SUCCESS } := by
  have h4 : ¬ ((argv.length : Nat) : Int) < 4 := by omega
  simp [main, h4]

/-- C6: when there are at least four arguments and `argv[2]` converts to
`v`, `main` calls `minix_mkfs` once, with disk file `argv[1]` and with both
`ninodes` and `nblocks` equal to `v`; a second run whose argument vector
differs from the first only in `argv[3]` does exactly the same. -/
theorem main_counts_from_same_argument (scan : String → Option Nat)
    (ninodes0 nblocks0 : Nat) (argv : List String) (v : Nat)
    (hargc : 4 ≤ argv.length) (hscan : scan (argv.getD 2 "") = some v) :
    main scan ninodes0 nblocks0 argv =
      { stdout := "", calls := [(argv.getD 1 "", v, v)], status := EXIT_SUCCESS } ∧
    ∀ (argv2 : List String) (n2 b2 : Nat), argv2.length = argv.length →
      (∀ i, i ≠ 3 → argv2.getD i "" = argv.getD i "") →
      main scan n2 b2 argv2 = main scan ninodes0 nblocks0 argv := by
  have hv : ∀ old, sscanf_u scan (argv.getD 2 "") old = v := by
    intro old
    unfold sscanf_u
    rw [hscan]
  constructor
  · rw [main_call scan ninodes0 nblocks0 argv hargc, hv, hv]
  · intro argv2 n2 b2 hlen hsame
    rw [main_call scan ninodes0 nblocks0 argv hargc,
      main_call scan n2 b2 argv2 (by omega), hsame 1 (by decide), hsame 2 (by decide),
      hv, hv, hv, hv]

/-- Witness of C6: `mkfs.minix disk.img 128 1024` calls
`minix_mkfs("disk.img", 128, 128)`, and so does `mkfs.minix disk.img 128 7`. -/
theorem main_counts_from_same_argument_witness :
    main scanDecimal 0 0 ["mkfs.minix", "disk.img", "128", "1024"] =
      { stdout := "", calls := [("disk.img", 128, 128)], status := EXIT_SUCCESS } ∧
    main scanDecimal 5 6 ["mkfs.minix", "disk.img", "128", "7"] =
      main scanDecimal 0 0 ["mkfs.minix", "disk.img", "128", "1024"] :=
  have h := main_counts_from_same_argument scanDecimal 0 0
    ["mkfs.minix", "disk.img", "128", "1024"] 128 (by decide) (by decide)
  ⟨h.1, h.2 ["mkfs.minix", "disk.img", "128", "7"] 5 6 rfl (by
    intro i hi
    match i, hi with
    | 0, _ => rfl
    | 1, _ => rfl
    | 2, _ => rfl
    | 3, hi => exact absurd rfl hi
    | _ + 4, _ => rfl)⟩

/-- C7 (the code at the failing input): for `mkfs.minix disk.img 128 1024`
the third operand converts to 1024, yet the call made is
`minix_mkfs("disk.img", 128, 128)`: `nblocks` is 128, not 1024. -/
theorem main_nblocks_not_third_operand :
    scanDecimal "128" = some 128 ∧ scanDecimal "1024" = some 1024 ∧
    (main scanDecimal 0 0 ["mkfs.minix", "disk.img", "128", "1024"]).calls
      = [("disk.img", 128, 128)] ∧
    (main scanDecimal 0 0 ["mkfs.minix", "disk.img", "128", "1024"]).calls
      ≠ [("disk.img", 128, 1024)] := by
  decide

/-! ## Properties of `console.c` -/

/-- The first loop of `console_scrolldown`, run for `n` cells from offset
`p` inside the first 24 rows, stops at `p + n` and leaves in each cell it
passed the old content of the cell one row below. -/
theorem pull_lines_spec :
    ∀ (n : Nat) (p : Int) (v : VideoMem), p + n ≤ 1920 →
      (pull_lines n p v).1 = p + n ∧
      ∀ i, (pull_lines n p v).2 i = if p ≤ i ∧ i < p + n then v (i + 80) else v i := by
  intro n
  induction n with
  | zero =>
    intro p v _
    refine ⟨by simp [pull_lines], ?_⟩
    intro i
    have : ¬ (p ≤ i ∧ i < p + ((0 : Nat) : Int)) := by omega
    rw [if_neg this]
    rfl
  | succ n ih =>
    intro p v h
    have hp : p < (VIDEO_HIGH - 1) * VIDEO_WIDTH := by
      simp only [VIDEO_HIGH, VIDEO_WIDTH]
      omega
    obtain ⟨h1, h2⟩ := ih (p + 1) (store v p (v (p + VIDEO_WIDTH))) (by omega)
    rw [pull_lines, if_pos hp]
    refine ⟨by rw [h1]; omega, ?_⟩
    intro i
    rw [h2 i]
    simp only [store, VIDEO_WIDTH]
    by_cases hi : i = p
    · subst hi
      have c1 : ¬ (i + 1 ≤ i ∧ i < i + 1 + (n : Int)) := by omega
      have c2 : i ≤ i ∧ i < i + ((n + 1 : Nat) : Int) := by omega
      rw [if_neg c1, if_pos c2, if_pos rfl]
    · by_cases hr : p + 1 ≤ i ∧ i < p + 1 + (n : Int)
      · have c2 : p ≤ i ∧ i < p + ((n + 1 : Nat) : Int) := by omega
        have c3 : ¬ (i + 80 = p) := by omega
        rw [if_pos hr, if_pos c2, if_neg c3]
      · have c2 : ¬ (p ≤ i ∧ i < p + ((n + 1 : Nat) : Int)) := by omega
        rw [if_neg hr, if_neg c2, if_neg hi]

/-- The second loop of `console_scrolldown`, run for `n` cells from offset
`p` inside the screen, stops at `p + n` and leaves the blank cell in each
cell it passed. -/
theorem blank_last_spec :
    ∀ (n : Nat) (p : Int) (v : VideoMem), p + n ≤ 2000 →
      (blank_last n p v).1 = p + n ∧
      ∀ i, (blank_last n p v).2 i = if p ≤ i ∧ i < p + n then 32 else v i := by
  intro n
  induction n with
  | zero =>
    intro p v _
    refine ⟨by simp [blank_last], ?_⟩
    intro i
    have : ¬ (p ≤ i ∧ i < p + ((0 : Nat) : Int)) := by omega
    rw [if_neg this]
    rfl
  | succ n ih =>
    intro p v h
    have hp : p < VIDEO_HIGH * VIDEO_WIDTH := by
      simp only [VIDEO_HIGH, VIDEO_WIDTH]
      omega
    obtain ⟨h1, h2⟩ := ih (p + 1) (store v p (((BLACK <<< 8) ||| 32) % 65536)) (by omega)
    rw [blank_last, if_pos hp]
    refine ⟨by rw [h1]; omega, ?_⟩
    intro i
    rw [h2 i]
    have hb : ((BLACK <<< 8) ||| 32) % 65536 = 32 := by decide
    simp only [store, hb]
    by_cases hi : i = p
    · subst hi
      have c1 : ¬ (i + 1 ≤ i ∧ i < i + 1 + (n : Int)) := by omega
      have c2 : i ≤ i ∧ i < i + ((n + 1 : Nat) : Int) := by omega
      rw [if_neg c1, if_pos c2, if_pos rfl]
    · by_cases hr : p + 1 ≤ i ∧ i < p + 1 + (n : Int)
      · have c2 : p ≤ i ∧ i < p + ((n + 1 : Nat) : Int) := by omega
        rw [if_pos hr, if_pos c2]
      · have c2 : ¬ (p ≤ i ∧ i < p + ((n + 1 : Nat) : Int)) := by omega
        rw [if_neg hr, if_neg c2, if_neg hi]

/-- Video memory after `console_scrolldown`: the first 24 rows hold the old
content one row below, the last row is blank, memory outside the screen is
untouched. -/
theorem console_scrolldown_video (s : Console) (i : Int) :
    (console_scrolldown s).video i =
      if 0 ≤ i ∧ i < 1920 then s.video (i + 80)
      else if 1920 ≤ i ∧ i < 2000 then 32 else s.video i := by
  have e1 : ((VIDEO_HIGH - 1) * VIDEO_WIDTH).toNat = 1920 := by decide
  obtain ⟨a1, a2⟩ := pull_lines_spec 1920 0 s.video (by decide)
  have a1x : (pull_lines 1920 0 s.video).1 = 1920 := by rw [a1]; rfl
  have e2 : (VIDEO_HIGH * VIDEO_WIDTH - (1920 : Int)).toNat = 80 := by decide
  obtain ⟨_, b2⟩ := blank_last_spec 80 1920 (pull_lines 1920 0 s.video).2 (by decide)
  simp only [console_scrolldown, e1, a1x, e2]
  rw [b2 i, a2 i]
  by_cases h1 : 0 ≤ i ∧ i < 1920
  · have c1 : ¬ ((1920 : Int) ≤ i ∧ i < 1920 + ((80 : Nat) : Int)) := by omega
    have c2 : (0 : Int) ≤ i ∧ i < 0 + ((1920 : Nat) : Int) := by omega
    rw [if_neg c1, if_pos c2, if_pos h1]
  · have c2 : ¬ ((0 : Int) ≤ i ∧ i < 0 + ((1920 : Nat) : Int)) := by omega
    by_cases h2 : 1920 ≤ i ∧ i < 2000
    · have c1 : (1920 : Int) ≤ i ∧ i < 1920 + ((80 : Nat) : Int) := by omega
      rw [if_pos c1, if_neg h1, if_pos h2]
    · have c1 : ¬ ((1920 : Int) ≤ i ∧ i < 1920 + ((80 : Nat) : Int)) := by omega
      rw [if_neg c1, if_neg c2, if_neg h1, if_neg h2]

/-- Both loops of `console_scrolldown` end because their condition fails:
the first at offset 1920, the second at offset 2000. -/
theorem console_scrolldown_loops_exit (v : VideoMem) :
    (pull_lines ((VIDEO_HIGH - 1) * VIDEO_WIDTH).toNat 0 v).1
      = (VIDEO_HIGH - 1) * VIDEO_WIDTH ∧
    (blank_last (VIDEO_HIGH * VIDEO_WIDTH - (VIDEO_HIGH - 1) * VIDEO_WIDTH).toNat
        ((VIDEO_HIGH - 1) * VIDEO_WIDTH) v).1 = VIDEO_HIGH * VIDEO_WIDTH := by
  have e1 : ((VIDEO_HIGH - 1) * VIDEO_WIDTH).toNat = 1920 := by decide
  have e2 : (VIDEO_HIGH * VIDEO_WIDTH - (VIDEO_HIGH - 1) * VIDEO_WIDTH).toNat = 80 := by
    decide
  have e3 : (VIDEO_HIGH - 1) * VIDEO_WIDTH = 1920 := by decide
  have e4 : VIDEO_HIGH * VIDEO_WIDTH = 2000 := by decide
  rw [e1, e2, e3, e4]
  exact ⟨by rw [(pull_lines_spec 1920 0 v (by decide)).1]; rfl,
         by rw [(blank_last_spec 80 1920 v (by decide)).1]; rfl⟩

/-- C8: `console_scrolldown` scrolls the 80x25 screen by one row: every cell
of rows 0 to 23 gets the old content of the cell one row below, every cell of
row 24 gets the blank cell `(BLACK << 8) | ' '` = 0x0020, and the cursor goes
to column 0 of row 24. -/
theorem console_scrolldown_one_row (s : Console) :
    (∀ r c : Int, 0 ≤ r → r < 24 → 0 ≤ c → c < 80 →
      (console_scrolldown s).video (r * 80 + c) = s.video ((r + 1) * 80 + c)) ∧
    (∀ c : Int, 0 ≤ c → c < 80 →
      (console_scrolldown s).video (24 * 80 + c) = (BLACK <<< 8) ||| 32) ∧
    (BLACK <<< 8) ||| 32 = 0x0020 ∧
    (console_scrolldown s).x = 0 ∧ (console_scrolldown s).y = 24 := by
  refine ⟨?_, ?_, by decide, rfl, rfl⟩
  · intro r c hr0 hr hc0 hc
    have h1 : 0 ≤ r * 80 + c ∧ r * 80 + c < 1920 := by omega
    rw [console_scrolldown_video, if_pos h1]
    congr 1
    ring
  · intro c hc0 hc
    have h1 : ¬ (0 ≤ 24 * 80 + c ∧ 24 * 80 + c < 1920) := by omega
    have h2 : 1920 ≤ 24 * 80 + c ∧ 24 * 80 + c < 2000 := by omega
    rw [console_scrolldown_video, if_neg h1, if_pos h2]
    decide

/-- Witness of C8 on a screen whose cell `i` holds `i`: after the scroll,
cell (3, 7) holds what cell (4, 7) held, cell (24, 79) is blank and the
cursor is at (0, 24). -/
theorem console_scrolldown_one_row_witness :
    (console_scrolldown (sampleConsole 3 4)).video (3 * 80 + 7)
      = (sampleConsole 3 4).video ((3 + 1) * 80 + 7) ∧
    (sampleConsole 3 4).video ((3 + 1) * 80 + 7) = 327 ∧
    (console_scrolldown (sampleConsole 3 4)).video (24 * 80 + 79) = 0x0020 ∧
    (console_scrolldown (sampleConsole 3 4)).x = 0 ∧
    (console_scrolldown (sampleConsole 3 4)).y = 24 :=
  have h := console_scrolldown_one_row (sampleConsole 3 4)
  ⟨h.1 3 7 (by decide) (by decide) (by decide) (by decide), by decide,
   h.2.1 79 (by decide) (by decide), h.2.2.2.1, h.2.2.2.2⟩

/-- The cell value `(color << 8) | ch` of two bytes fits 16 bits; its low
byte is `ch` and its high byte is `color`. -/
theorem cell_bytes (ch color : Nat) (hch : ch < 256) (hcolor : color < 256) :
    ((color <<< 8) ||| ch) % 65536 = (color <<< 8) ||| ch ∧
    ((color <<< 8) ||| ch) % 256 = ch ∧ ((color <<< 8) ||| ch) / 256 = color := by
  have h : (color <<< 8) ||| ch = 2 ^ 8 * color + ch := by
    rw [Nat.shiftLeft_eq, Nat.mul_comm, Nat.mul_add_lt_is_or (by omega) color]
  rw [h]
  omega

/-- The `default` case of the `switch` in `console_put`. -/
theorem console_put_switch_default (s : Console) (ch color : Nat)
    (hnl : ch ≠ 10) (htab : ch ≠ 9) (hbs : ch ≠ 8) :
    console_put_switch ch color s =
      { s with
        video := store s.video (s.y * 80 + s.x) (((color <<< 8) ||| ch) % 65536)
        x := s.x + 1 } := by
  simp only [console_put_switch, if_neg hnl, if_neg htab, if_neg hbs, VIDEO_WIDTH]

/-- `cursor_move` changes neither the video memory nor the cursor. -/
theorem cursor_move_keeps (s : Console) :
    (cursor_move s).video = s.video ∧ (cursor_move s).x = s.x ∧ (cursor_move s).y = s.y :=
  ⟨rfl, rfl, rfl⟩

/-- The cursor part of `console_put` when the cursor is inside the screen:
nothing but the port writes of `cursor_move` happens. -/
theorem console_put_cursor_inside (s : Console) (hx : s.x < 80) (hy : s.y < 25) :
    console_put_cursor s = cursor_move s := by
  have h1 : ¬ s.x ≥ VIDEO_WIDTH := by simp only [VIDEO_WIDTH]; omega
  have h2 : ¬ s.y ≥ VIDEO_HIGH := by simp only [VIDEO_HIGH]; omega
  simp only [console_put_cursor, if_neg h1, if_neg h2]

/-- The cursor part of `console_put` when the cursor has passed the right
margin above the last row: it wraps to the start of the next row. -/
theorem console_put_cursor_wrap (s : Console) (hx : 80 ≤ s.x) (hy : s.y < 24) :
    console_put_cursor s = cursor_move { s with x := 0, y := s.y + 1 } := by
  have h1 : s.x ≥ VIDEO_WIDTH := by simp only [VIDEO_WIDTH]; omega
  have h2 : ¬ s.y + 1 ≥ VIDEO_HIGH := by simp only [VIDEO_HIGH]; omega
  simp only [console_put_cursor, if_pos h1, if_neg h2]

/-- The cursor part of `console_put` when the cursor has passed the right
margin in the last row: the screen scrolls. -/
theorem console_put_cursor_scroll (s : Console) (hx : 80 ≤ s.x) (hy : s.y = 24) :
    console_put_cursor s =
      cursor_move (console_scrolldown { s with x := 0, y := s.y + 1 }) := by
  have h1 : s.x ≥ VIDEO_WIDTH := by simp only [VIDEO_WIDTH]; omega
  have h2 : s.y + 1 ≥ VIDEO_HIGH := by simp only [VIDEO_HIGH]; omega
  simp only [console_put_cursor, if_pos h1, if_pos h2]

/-- C9: for a byte `ch` other than newline, tab and backspace, a colour byte
`color` and a cursor `(x, y)` inside the screen, `console_put` first writes
`(color << 8) | ch` into cell `y*80 + x` (low byte `ch`, high byte `color`)
and nothing else; then the cursor becomes `(x+1, y)` if `x < 79`,
`(0, y+1)` if `x = 79` and `y < 24`, and if `x = 79` and `y = 24` the screen
resulting from the write is scrolled by one row and the cursor becomes
`(0, 24)`; when no scroll occurs the final screen is the old one with the
one cell written. -/
theorem console_put_ordinary (s : Console) (ch color : Nat)
    (hch : ch < 256) (hcolor : color < 256)
    (hnl : ch ≠ 10) (htab : ch ≠ 9) (hbs : ch ≠ 8)
    (hx0 : 0 ≤ s.x) (hx : s.x < 80) (hy0 : 0 ≤ s.y) (hy : s.y < 25) :
    (console_put_switch ch color s).video (s.y * 80 + s.x) = (color <<< 8) ||| ch ∧
    ((color <<< 8) ||| ch) % 256 = ch ∧ ((color <<< 8) ||| ch) / 256 = color ∧
    (∀ i, i ≠ s.y * 80 + s.x → (console_put_switch ch color s).video i = s.video i) ∧
    console_put ch color s = console_put_cursor (console_put_switch ch color s) ∧
    (s.x < 79 → (console_put ch color s).x = s.x + 1 ∧ (console_put ch color s).y = s.y) ∧
    (s.x = 79 → s.y < 24 →
      (console_put ch color s).x = 0 ∧ (console_put ch color s).y = s.y + 1) ∧
    (s.x = 79 → s.y = 24 →
      (console_put ch color s).x = 0 ∧ (console_put ch color s).y = 24 ∧
      (∀ r c : Int, 0 ≤ r → r < 24 → 0 ≤ c → c < 80 →
        (console_put ch color s).video (r * 80 + c)
          = (console_put_switch ch color s).video ((r + 1) * 80 + c)) ∧
      (∀ c : Int, 0 ≤ c → c < 80 →
        (console_put ch color s).video (24 * 80 + c) = 0x0020)) ∧
    (¬ (s.x = 79 ∧ s.y = 24) →
      (console_put ch color s).video (s.y * 80 + s.x) = (color <<< 8) ||| ch ∧
      ∀ i, i ≠ s.y * 80 + s.x → (console_put ch color s).video i = s.video i) := by
  obtain ⟨b1, b2, b3⟩ := cell_bytes ch color hch hcolor
  have hsw := console_put_switch_default s ch color hnl htab hbs
  have hcell : (console_put_switch ch color s).video (s.y * 80 + s.x)
      = (color <<< 8) ||| ch := by
    rw [hsw]
    simp only [store, if_pos, b1]
  have hother : ∀ i, i ≠ s.y * 80 + s.x →
      (console_put_switch ch color s).video i = s.video i := by
    intro i hi
    rw [hsw]
    simp only [store, if_neg hi]
  have hwx : (console_put_switch ch color s).x = s.x + 1 := by rw [hsw]
  have hwy : (console_put_switch ch color s).y = s.y := by rw [hsw]
  refine ⟨hcell, b2, b3, hother, rfl, ?_, ?_, ?_, ?_⟩
  · intro h
    have e := console_put_cursor_inside (console_put_switch ch color s)
      (by rw [hwx]; omega) (by rw [hwy]; omega)
    unfold console_put
    rw [e]
    exact ⟨hwx, hwy⟩
  · intro h1 h2
    have e := console_put_cursor_wrap (console_put_switch ch color s)
      (by rw [hwx]; omega) (by rw [hwy]; omega)
    unfold console_put
    rw [e]
    exact ⟨rfl, by show (console_put_switch ch color s).y + 1 = s.y + 1; rw [hwy]⟩
  · intro h1 h2
    have e := console_put_cursor_scroll (console_put_switch ch color s)
      (by rw [hwx]; omega) (by rw [hwy]; omega)
    unfold console_put
    rw [e]
    refine ⟨rfl, rfl, ?_, ?_⟩
    · intro r c hr0 hr hc0 hc
      have k : 0 ≤ r * 80 + c ∧ r * 80 + c < 1920 := by omega
      rw [(cursor_move_keeps _).1, console_scrolldown_video, if_pos k]
      have e80 : r * 80 + c + 80 = (r + 1) * 80 + c := by ring
      rw [e80]
    · intro c hc0 hc
      have k1 : ¬ (0 ≤ 24 * 80 + c ∧ 24 * 80 + c < 1920) := by omega
      have k2 : 1920 ≤ 24 * 80 + c ∧ 24 * 80 + c < 2000 := by omega
      rw [(cursor_move_keeps _).1, console_scrolldown_video, if_neg k1, if_pos k2]
  · intro h
    have hv : (console_put ch color s).video = (console_put_switch ch color s).video := by
      unfold console_put
      by_cases h79 : s.x = 79
      · have e := console_put_cursor_wrap (console_put_switch ch color s)
          (by rw [hwx]; omega) (by rw [hwy]; omega)
        rw [e]
        rfl
      · have e := console_put_cursor_inside (console_put_switch ch color s)
          (by rw [hwx]; omega) (by rw [hwy]; omega)
        rw [e]
        rfl
    rw [hv]
    exact ⟨hcell, hother⟩

/-- Witness of C9 on a screen whose cell `i` holds `i`, for the white letter
`A` at the cursor positions (5, 3), (79, 3) and (79, 24). -/
theorem console_put_ordinary_witness :
    ((console_put_switch 65 WHITE (sampleConsole 5 3)).video (3 * 80 + 5) = 0x0f41 ∧
     (console_put 65 WHITE (sampleConsole 5 3)).x = 6 ∧
     (console_put 65 WHITE (sampleConsole 5 3)).y = 3 ∧
     (console_put 65 WHITE (sampleConsole 5 3)).video (3 * 80 + 5) = 0x0f41 ∧
     (console_put 65 WHITE (sampleConsole 5 3)).video (3 * 80 + 6)
       = (sampleConsole 5 3).video (3 * 80 + 6)) ∧
    ((console_put 65 WHITE (sampleConsole 79 3)).x = 0 ∧
     (console_put 65 WHITE (sampleConsole 79 3)).y = 4) ∧
    ((console_put 65 WHITE (sampleConsole 79 24)).x = 0 ∧
     (console_put 65 WHITE (sampleConsole 79 24)).y = 24 ∧
     (console_put 65 WHITE (sampleConsole 79 24)).video (23 * 80 + 79)
       = (console_put_switch 65 WHITE (sampleConsole 79 24)).video (24 * 80 + 79) ∧
     (console_put 65 WHITE (sampleConsole 79 24)).video (24 * 80 + 79) = 0x0020) :=
  have a := console_put_ordinary (sampleConsole 5 3) 65 WHITE (by decide) (by decide)
    (by decide) (by decide) (by decide) (by decide) (by decide) (by decide) (by decide)
  have b := console_put_ordinary (sampleConsole 79 3) 65 WHITE (by decide) (by decide)
    (by decide) (by decide) (by decide) (by decide) (by decide) (by decide) (by decide)
  have c := console_put_ordinary (sampleConsole 79 24) 65 WHITE (by decide) (by decide)
    (by decide) (by decide) (by decide) (by decide) (by decide) (by decide) (by decide)
  have c4 := c.2.2.2.2.2.2.2.1 rfl rfl
  have a5 := a.2.2.2.2.2.2.2.2 (by decide)
  ⟨⟨a.1, (a.2.2.2.2.2.1 (by decide)).1, (a.2.2.2.2.2.1 (by decide)).2, a5.1,
      a5.2 (3 * 80 + 6) (by decide)⟩,
   ⟨(b.2.2.2.2.2.2.1 rfl (by decide)).1, (b.2.2.2.2.2.2.1 rfl (by decide)).2⟩,
   ⟨c4.1, c4.2.1,
      c4.2.2.1 23 79 (by decide) (by decide) (by decide) (by decide),
      c4.2.2.2 79 (by decide) (by decide)⟩⟩

end Nanvix
